import Mathlib

/- Verification of the admin-ui repository: a shallow embedding of the
   AdminUI component's list-state handlers (src/AdminUI/AdminUI.tsx), the
   usePaginatedList page slice (src/hooks/usePaginatedList.ts), and the
   usePagination page-window computation (src/hooks/usePagination.ts),
   together with the fetch lifecycle of AdminUI's fetchData. -/

set_option maxHeartbeats 1000000
set_option maxRecDepth 10000

/-- The TUserRole union type "admin" | "member" of AdminUI.tsx. -/
inductive TUserRole where
  | admin
  | member
  deriving DecidableEq, Repr

/-- The TUser record type of AdminUI.tsx.  The optional `delete?: boolean`
selection flag is modelled as a Bool, with `undefined` represented as
`false` (JS `!undefined = true = !false`). -/
structure TUser where
  id : String
  name : String
  email : String
  role : TUserRole
  delete : Bool
  deriving DecidableEq, Repr

/-- `const PAGE_SIZE = 10` in AdminUI.tsx. -/
def PAGE_SIZE : Nat := 10

/-- Whether the first list is an initial segment of the second
(character-level helper for the JS `String.prototype.includes`). -/
def listStarts : List Char → List Char → Bool
  | [], _ => true
  | _ :: _, [] => false
  | a :: as, b :: bs => a == b && listStarts as bs

/-- JS `hay.includes(needle)`: substring containment. -/
def strIncludes (hay needle : String) : Bool :=
  (List.range (hay.toList.length + 1)).any fun i => listStarts needle.toList (hay.toList.drop i)

/-- JS `String.prototype.toLowerCase` (character-wise lowering). -/
def jsToLower (s : String) : String := String.mk (s.data.map Char.toLower)

/-- The search predicate of onSearchIconClick:
`item.email.toLowerCase().includes(searchText.toLowerCase()) ||
 item.name.toLowerCase().includes(searchText.toLowerCase())`. -/
def matchesQuery (searchText : String) (item : TUser) : Bool :=
  strIncludes (jsToLower item.email) (jsToLower searchText)
    || strIncludes (jsToLower item.name) (jsToLower searchText)

/-- JS `Array.prototype.map((item, index) => ...)`, starting the index at
a given value (helper for the zero-based version below). -/
def mapIdxFrom (f : Nat → α → β) : Nat → List α → List β
  | _, [] => []
  | i, a :: as => f i a :: mapIdxFrom f (i + 1) as

/-- JS `Array.prototype.map` with the element index as second callback
argument. -/
def jsMapWithIdx (f : Nat → α → β) (l : List α) : List β := mapIdxFrom f 0 l

/-- The `isInCurrentPage` test of onCheckboxClick:
`index >= (currentPage - 1) * PAGE_SIZE && index < currentPage * PAGE_SIZE`. -/
def inPageRange (currentPage index : Nat) : Bool :=
  decide ((currentPage - 1) * PAGE_SIZE ≤ index) && decide (index < currentPage * PAGE_SIZE)

/-- The setOriginal updater of onCheckboxClick in AdminUI.tsx: for the
header checkbox (`id === "all"`) each record whose index lies in the
current page window gets its delete flag flipped; otherwise the single
record with the matching id gets its flag flipped. -/
def onCheckboxClick (id : String) (currentPage : Nat) (l : List TUser) : List TUser :=
  jsMapWithIdx
    (fun index item =>
      if id == "all" then
        { item with delete := if inPageRange currentPage index then !item.delete else item.delete }
      else if item.id == id then { item with delete := !item.delete }
      else item)
    l

/-- The setOriginal updater of onDeleteSelectedClick:
`prev.filter((item) => !item.delete)`. -/
def onDeleteSelectedClick (l : List TUser) : List TUser := l.filter fun item => !item.delete

/-- The setOriginal updater of onDeleteClick:
`prev.filter(({ id: itemId }) => itemId !== id)`. -/
def onDeleteClick (id : String) (l : List TUser) : List TUser :=
  l.filter fun item => !(item.id == id)

/-- `selectedCount` of AdminUI.tsx: `list.filter((item) => item.delete).length`. -/
def selectedCount (list : List TUser) : Nat := (list.filter fun item => item.delete).length

/-- JS `array.slice(start, stop)` for non-negative bounds. -/
def jsSliceNat (l : List α) (start stop : Nat) : List α := (l.drop start).take (stop - start)

/-- `paginatedList` of usePaginatedList.ts:
`[...original].slice(currentPage * pageSize, (currentPage + 1) * pageSize)`
with the zero-based internal `currentPage`. -/
def paginatedList (original : List α) (currentPageZero pageSize : Nat) : List α :=
  jsSliceNat original (currentPageZero * pageSize) ((currentPageZero + 1) * pageSize)

/-- The spec's reading of the slice contract: `items[a : b]`, the elements
with indices in `[a, b)` (take the first `b`, then drop the first `a`). -/
def sliceSpec (items : List α) (a b : Nat) : List α := (items.take b).drop a

/-- The setOriginal updater of onSaveClick in AdminUI.tsx: replace name,
role and email of the record at canonical index
`(currentPage - 1) * PAGE_SIZE + editIndex`. -/
def onSaveClick (currentPage : Nat) (editIndex : Int) (name email : String) (role : TUserRole)
    (l : List TUser) : List TUser :=
  jsMapWithIdx
    (fun index item =>
      if (index : Int) = ((currentPage : Int) - 1) * (PAGE_SIZE : Int) + editIndex then
        { item with name := name, role := role, email := email }
      else item)
    l

/-- `totalPages` of usePagination.ts: `Math.max(Math.ceil(total / pageSize), 1)`. -/
def totalPages (total pageSize : Nat) : Nat := max ((total + pageSize - 1) / pageSize) 1

/-- The one-based page slice shown by AdminUI: `updateCurrentPage(page)`
stores `page - 1` and `paginatedList` slices with it. -/
def pageSlice (l : List TUser) (currentPage : Nat) : List TUser :=
  paginatedList l (currentPage - 1) PAGE_SIZE

/-- The component state of AdminUI.tsx that the claims are about:
the canonical list (`original`), the displayed list (`list`), the search
box content, the one-based `currentPage` of usePagination, and the inline
edit state (`editIndex`, `name`, `email`, `role`). -/
structure AdminState where
  original : List TUser
  list : List TUser
  searchText : String
  currentPage : Nat
  editIndex : Int
  name : String
  email : String
  role : TUserRole
  deriving DecidableEq, Repr

/-- The effect cascade after `setOriginal`: `updateList` + `updateTotalItems`
re-derive `paginatedList`, and the `[paginatedList]` effect stores it in
`list`. -/
def syncList (s : AdminState) : AdminState :=
  { s with list := pageSlice s.original s.currentPage }

/-- The effect cascade after `setCurrentPage` to a genuinely new value:
the `[currentPage]` effect clears the search box and calls
`updateCurrentPage`, which re-derives `paginatedList` into `list`.
A `setCurrentPage` to the same number does not re-render. -/
def setPage (s : AdminState) (p : Nat) : AdminState :=
  if p = s.currentPage then s
  else { s with currentPage := p, searchText := "", list := pageSlice s.original p }

/-- `Math.max(1, Math.min(page, totalPages))` of goToPage. -/
def clampPage (n : Int) (tp : Nat) : Nat := (max 1 (min n (tp : Int))).toNat

/-- The user actions of AdminUI.tsx that mutate the modelled state. -/
inductive UiAction where
  | setSearch (q : String)
  | searchClick
  | checkboxClick (id : String)
  | deleteSelectedClick
  | deleteClick (id : String)
  | editClick (id : String)
  | nameEdit (v : String)
  | emailEdit (v : String)
  | roleChange (r : TUserRole)
  | saveClick
  | goToPage (n : Int)
  | nextPage
  | previousPage
  | firstPage
  | lastPage

/-- One synchronous event-handler dispatch of AdminUI.tsx, with the React
effects that it triggers flushed before the next action. -/
def step (s : AdminState) : UiAction → AdminState
  | .setSearch q => { s with searchText := q }
  | .searchClick => { s with list := s.original.filter (matchesQuery s.searchText) }
  | .checkboxClick id =>
      if id = "" then s
      else syncList { s with original := onCheckboxClick id s.currentPage s.original }
  | .deleteSelectedClick => syncList { s with original := onDeleteSelectedClick s.original }
  | .deleteClick id =>
      if id = "" then s
      else syncList { s with original := onDeleteClick id s.original }
  | .editClick id =>
      if id = "" then s
      else
        match s.list.find? (fun item => item.id == id) with
        | none => s
        | some u =>
            { s with editIndex := ((s.list.findIdx fun item => item.id == id : Nat) : Int),
                     name := u.name, email := u.email, role := u.role }
  | .nameEdit v => { s with name := v }
  | .emailEdit v => { s with email := v }
  | .roleChange r => { s with role := r }
  | .saveClick =>
      syncList { s with
        original := onSaveClick s.currentPage s.editIndex s.name s.email s.role s.original,
        editIndex := -1, name := "", email := "", role := .member }
  | .goToPage n => setPage s (clampPage n (totalPages s.original.length PAGE_SIZE))
  | .nextPage =>
      if s.currentPage < totalPages s.original.length PAGE_SIZE then
        setPage s (s.currentPage + 1)
      else s
  | .previousPage => if 1 < s.currentPage then setPage s (s.currentPage - 1) else s
  | .firstPage => setPage s 1
  | .lastPage => setPage s (totalPages s.original.length PAGE_SIZE)

/-- The state right after a successful initial fetch of `records` and the
mount-time effects: page 1, empty search, no edit in progress. -/
def initState (records : List TUser) : AdminState :=
  { original := records, list := pageSlice records 1, searchText := "", currentPage := 1,
    editIndex := -1, name := "", email := "", role := .member }

/-- Run a sequence of user actions from the freshly initialized state. -/
def run (records : List TUser) (acts : List UiAction) : AdminState :=
  acts.foldl step (initState records)

/-- A canonical 25-record list (records 3 and 7 are the only ones whose
name or email contains "zz"), used by the concrete scenarios. -/
def canonical25 : List TUser :=
  (List.range 25).map fun i =>
    { id := s!"id{i}",
      name := if i = 3 then "zzalice" else if i = 7 then "zzbob" else s!"u{i}",
      email := s!"e{i}@x.co", role := .member, delete := false }

section Lemmas

/-- Indexing into `mapIdxFrom`. -/
theorem mapIdxFrom_getElem? (f : Nat → α → β) (k i : Nat) (l : List α) :
    (mapIdxFrom f k l)[i]? = (l[i]?).map (f (k + i)) := by
  induction l generalizing k i with
  | nil => simp [mapIdxFrom]
  | cons a as ih =>
    cases i with
    | zero => simp [mapIdxFrom]
    | succ n =>
      simp only [mapIdxFrom, List.getElem?_cons_succ, ih (k + 1) n]
      have h : k + 1 + n = k + (n + 1) := by omega
      rw [h]

/-- Composing two `mapIdxFrom` passes with the same start index. -/
theorem mapIdxFrom_mapIdxFrom (f g : Nat → α → α) (k : Nat) (l : List α) :
    mapIdxFrom f k (mapIdxFrom g k l) = mapIdxFrom (fun i a => f i (g i a)) k l := by
  induction l generalizing k with
  | nil => rfl
  | cons a as ih => simp [mapIdxFrom, ih]

/-- `mapIdxFrom` with a pointwise-identity function is the identity. -/
theorem mapIdxFrom_id (f : Nat → α → α) (k : Nat) (l : List α)
    (hf : ∀ i a, f i a = a) : mapIdxFrom f k l = l := by
  induction l generalizing k with
  | nil => rfl
  | cons a as ih => simp [mapIdxFrom, hf, ih]

end Lemmas

section PositivityInvariant

/-- Any single dispatched action keeps `currentPage` at least 1. -/
theorem step_currentPage_pos (s : AdminState) (a : UiAction) (h : 1 ≤ s.currentPage) :
    1 ≤ (step s a).currentPage := by
  have hset : ∀ (t : AdminState) (p : Nat), 1 ≤ t.currentPage → 1 ≤ p →
      1 ≤ (setPage t p).currentPage := by
    intro t p ht hp
    unfold setPage
    split
    · exact ht
    · exact hp
  have hclamp : ∀ (n : Int) (tp : Nat), 1 ≤ clampPage n tp := by
    intro n tp
    unfold clampPage
    omega
  have htp : ∀ n ps, 1 ≤ totalPages n ps := by
    intro n ps
    unfold totalPages
    omega
  cases a with
  | setSearch q => exact h
  | searchClick => exact h
  | checkboxClick id =>
    simp only [step]
    split
    · exact h
    · exact h
  | deleteSelectedClick => exact h
  | deleteClick id =>
    simp only [step]
    split
    · exact h
    · exact h
  | editClick id =>
    simp only [step]
    split
    · exact h
    · split
      · exact h
      · exact h
  | nameEdit v => exact h
  | emailEdit v => exact h
  | roleChange r => exact h
  | saveClick => exact h
  | goToPage n => exact hset s _ h (hclamp n _)
  | nextPage =>
    simp only [step]
    split
    · exact hset s _ h (by omega)
    · exact h
  | previousPage =>
    simp only [step]
    split
    · next hlt => exact hset s _ h (by omega)
    · exact h
  | firstPage => exact hset s 1 h (Nat.le_refl 1)
  | lastPage => exact hset s _ h (htp _ _)

/-- `currentPage` stays at least 1 along any action sequence. -/
theorem foldl_currentPage_pos (acts : List UiAction) (s : AdminState) (h : 1 ≤ s.currentPage) :
    1 ≤ (acts.foldl step s).currentPage := by
  induction acts generalizing s with
  | nil => exact h
  | cons a as ih => exact ih (step s a) (step_currentPage_pos s a h)

end PositivityInvariant

/-- Claim C1 (amended): in every reachable state `currentPage` is at least 1,
but mutations that shrink the list do not re-clamp it — the delete-selected
handler leaves `currentPage` untouched, so it can exceed the recomputed
`totalPages`; clamping happens only inside explicit page navigation. -/
theorem currentPage_ge_one_not_clamped (records : List TUser) (acts : List UiAction) :
    1 ≤ (run records acts).currentPage
    ∧ ∀ s : AdminState, (step s .deleteSelectedClick).currentPage = s.currentPage :=
  ⟨foldl_currentPage_pos acts (initState records) (Nat.le_refl 1), fun _ => rfl⟩

/-- The spec scenario for C1: 25 records, go to page 3, select the five
records of page 3 plus one record selected earlier on page 1, bulk-delete. -/
def clampScenario : AdminState :=
  run canonical25 [.checkboxClick "id0", .goToPage 3, .checkboxClick "all", .deleteSelectedClick]

/-- Claim C1, counterexample: after deleting 6 of 25 records while on
page 3, `totalPages` drops to 2 but `currentPage` stays 3 — it is not
clamped into `[1, totalPages]` as the claim states. -/
theorem currentPage_exceeds_totalPages :
    clampScenario.currentPage = 3
    ∧ totalPages clampScenario.original.length PAGE_SIZE = 2
    ∧ totalPages clampScenario.original.length PAGE_SIZE < clampScenario.currentPage := by
  decide

/-- Claim C2 (amended): on a canonical list of 25 records, a search whose
query matches exactly 2 records sets the displayed list to those 2 records,
but `totalPages` stays 3 (it is always recomputed from the canonical list,
which search does not change) and `currentPage` keeps its prior value. -/
theorem searchClick_preserves_pagination (s : AdminState)
    (h25 : s.original.length = 25)
    (h2 : (s.original.filter (matchesQuery s.searchText)).length = 2) :
    (step s .searchClick).list.length = 2
    ∧ totalPages (step s .searchClick).original.length PAGE_SIZE = 3
    ∧ (step s .searchClick).currentPage = s.currentPage := by
  refine ⟨h2, ?_, rfl⟩
  show totalPages s.original.length PAGE_SIZE = 3
  rw [h25]
  decide

/-- Witness for the amended C2 at the concrete 25-record list. -/
theorem searchClick_preserves_pagination_witness :
    (step (step (initState canonical25) (.setSearch "zz")) .searchClick).list.length = 2
    ∧ totalPages (step (step (initState canonical25) (.setSearch "zz"))
        .searchClick).original.length PAGE_SIZE = 3
    ∧ (step (step (initState canonical25) (.setSearch "zz")) .searchClick).currentPage
        = (step (initState canonical25) (.setSearch "zz")).currentPage :=
  searchClick_preserves_pagination _ (by decide) (by decide)

/-- The search scenario of C2, starting from page 2. -/
def searchScenario : AdminState := run canonical25 [.goToPage 2, .setSearch "zz", .searchClick]

/-- Claim C2, counterexample: the filtered list has length 2, yet
`totalPages` is still 3 (not 1) and `currentPage` is still 2 (not 1). -/
theorem search_leaves_totalPages_and_page :
    searchScenario.list.length = 2
    ∧ totalPages searchScenario.original.length PAGE_SIZE = 3
    ∧ searchScenario.currentPage = 2 := by
  decide

/-- A record selected for deletion. -/
def userA : TUser := { id := "a", name := "A", email := "a@x.co", role := .member, delete := true }

/-- A record not selected for deletion. -/
def userB : TUser := { id := "b", name := "B", email := "b@x.co", role := .member, delete := false }

/-- A one-page list with mixed selection: `userA` selected, `userB` not. -/
def mixedPage : List TUser := [userA, userB]

/-- Claim C3 (amended): the header "all" checkbox flips each record's
selection flag on the current page individually (an all-selected page
becomes all-deselected and an all-deselected page all-selected, but a
mixed page is inverted, not fully selected); records whose index is
outside the current page keep their flag and all other fields. -/
theorem toggleSelectPage_flips_each (currentPage i : Nat) (l : List TUser) :
    (onCheckboxClick "all" currentPage l)[i]? =
      (l[i]?).map fun item =>
        { item with delete := if inPageRange currentPage i then !item.delete else item.delete } := by
  unfold onCheckboxClick jsMapWithIdx
  rw [mapIdxFrom_getElem?]
  simp

/-- Claim C3, counterexample: on the mixed page above the claim predicts
the header toggle selects every record of the page, but the code inverts
the page instead, leaving `userA` deselected. -/
theorem toggleSelectPage_mixed_not_all_selected :
    ¬ ∀ item ∈ onCheckboxClick "all" 1 mixedPage, item.delete = true := by
  decide

/-- Claim C4: after delete-selected, no previously selected record remains,
every unselected record survives in its original relative order (the result
is a sublist of the input containing all unselected records), and the
selected count of the result is zero. -/
theorem deleteSelected_removes_exactly_selected (l : List TUser) :
    (∀ item ∈ l, item.delete = true → item ∉ onDeleteSelectedClick l)
    ∧ (onDeleteSelectedClick l).Sublist l
    ∧ (∀ item ∈ l, item.delete = false → item ∈ onDeleteSelectedClick l)
    ∧ selectedCount (onDeleteSelectedClick l) = 0 := by
  refine ⟨?_, List.filter_sublist l, ?_, ?_⟩
  · intro item _ hdel hmem
    have h := List.of_mem_filter hmem
    rw [hdel] at h
    simp at h
  · intro item hm hdel
    exact List.mem_filter.mpr ⟨hm, by rw [hdel]; rfl⟩
  · unfold selectedCount onDeleteSelectedClick
    rw [List.filter_filter]
    simp

/-- Witness for C4 at the concrete mixed page. -/
theorem deleteSelected_removes_exactly_selected_witness :
    userA ∉ onDeleteSelectedClick mixedPage ∧ userB ∈ onDeleteSelectedClick mixedPage :=
  ⟨(deleteSelected_removes_exactly_selected mixedPage).1 userA (by decide) (by decide),
   (deleteSelected_removes_exactly_selected mixedPage).2.2.1 userB (by decide) (by decide)⟩

section SliceLemmas

/-- The slice of page `i` is ten-at-a-time drop/take. -/
theorem paginatedList_eq_drop_take (l : List α) (i ps : Nat) :
    paginatedList l i ps = (l.drop (i * ps)).take ps := by
  have h2 : (i + 1) * ps = i * ps + ps := by ring
  have h : (i + 1) * ps - i * ps = ps := by omega
  simp only [paginatedList, jsSliceNat, h]

/-- Concatenating the first `k` page slices gives the first `k * ps`
elements. -/
theorem join_slices_take (l : List α) (ps k : Nat) :
    ((List.range k).map fun i => paginatedList l i ps).flatten = l.take (k * ps) := by
  induction k with
  | zero => simp
  | succ k ih =>
    rw [List.range_succ, List.map_append, List.flatten_append, ih]
    simp only [List.map_cons, List.map_nil, List.flatten_cons, List.flatten_nil, List.append_nil]
    rw [paginatedList_eq_drop_take, Nat.succ_mul, List.take_add]

/-- `ceil(n / ps) * ps` covers `n`. -/
theorem length_le_ceil_mul (n ps : Nat) (hps : 0 < ps) : n ≤ ((n + ps - 1) / ps) * ps := by
  have h1 := Nat.div_add_mod (n + ps - 1) ps
  have h2 : (n + ps - 1) % ps < ps := Nat.mod_lt _ hps
  set q := (n + ps - 1) / ps with hq
  set r := (n + ps - 1) % ps with hr
  have h4 : q * ps = ps * q := Nat.mul_comm q ps
  omega

end SliceLemmas

/-- Claim C6: for every list and page size > 0, concatenating the page
slices for indices 0 .. ceil(length / pageSize) - 1 reproduces the list
exactly and in order; a slice whose start is beyond the list end is empty;
and each slice equals `items[i * ps : (i + 1) * ps]`.  (The embedding is
purely functional, so `paginatedList` cannot mutate its input.) -/
theorem slice_roundtrip (l : List α) (ps : Nat) (hps : 0 < ps) :
    ((List.range ((l.length + ps - 1) / ps)).map fun i => paginatedList l i ps).flatten = l
    ∧ (∀ i, l.length ≤ i * ps → paginatedList l i ps = [])
    ∧ (∀ i, paginatedList l i ps = sliceSpec l (i * ps) ((i + 1) * ps)) := by
  refine ⟨?_, ?_, ?_⟩
  · rw [join_slices_take]
    exact List.take_of_length_le (length_le_ceil_mul l.length ps hps)
  · intro i hi
    rw [paginatedList_eq_drop_take, List.drop_eq_nil_of_le hi, List.take_nil]
  · intro i
    rw [paginatedList_eq_drop_take, sliceSpec, List.drop_take ((i + 1) * ps) (i * ps) l]
    have h2 : (i + 1) * ps = i * ps + ps := by ring
    have h : (i + 1) * ps - i * ps = ps := by omega
    rw [h]

/-- Witness for C6 at a concrete three-element list with page size 2. -/
theorem slice_roundtrip_witness :
    (((List.range (([1, 2, 3].length + 2 - 1) / 2)).map
        fun i => paginatedList [1, 2, 3] i 2).flatten = [1, 2, 3])
    ∧ paginatedList [1, 2, 3] 5 2 = ([] : List Nat) :=
  ⟨(slice_roundtrip [1, 2, 3] 2 (by decide)).1,
   (slice_roundtrip [1, 2, 3] 2 (by decide)).2.1 5 (by decide)⟩

/-- Claim C7: applying the header "all" toggle twice in succession (with
no other mutation in between) restores every record's selection flag —
the handler is an involution on the canonical list. -/
theorem toggleSelectPage_involutive (currentPage : Nat) (l : List TUser) :
    onCheckboxClick "all" currentPage (onCheckboxClick "all" currentPage l) = l := by
  unfold onCheckboxClick jsMapWithIdx
  rw [mapIdxFrom_mapIdxFrom]
  apply mapIdxFrom_id
  intro i a
  simp only [beq_self_eq_true, if_true]
  cases hb : inPageRange currentPage i <;> cases a <;> simp [hb]

/-- A two-record canonical list; only the second record matches "zz". -/
def editPair : List TUser :=
  [{ id := "a", name := "Alice", email := "alice@x.co", role := .member, delete := false },
   { id := "b", name := "Bobzz", email := "bobzz@x.co", role := .member, delete := false }]

/-- The C8 failing run: search for "zz" (the displayed list becomes the
single record id "b"), enter edit mode on that row, rename it, save. -/
def saveScenario : AdminState :=
  run editPair [.setSearch "zz", .searchClick, .editClick "b", .nameEdit "Robert", .saveClick]

/-- Claim C8: evaluation of the code at the failing input.  The edit was
begun on the row of record id "b", yet after save the canonical list shows
record id "a" overwritten with record "b"'s draft (name "Robert", email
"bobzz@x.co") while record "b" itself is unchanged: onSaveClick addresses
the record by `(currentPage - 1) * PAGE_SIZE + editIndex` into the
canonical list, where `editIndex` is the row's position in the displayed
(filtered, unpaginated) list — not by the edited record's id. -/
theorem save_corrupts_other_record :
    saveScenario.original =
      [{ id := "a", name := "Robert", email := "bobzz@x.co", role := .member, delete := false },
       { id := "b", name := "Bobzz", email := "bobzz@x.co", role := .member, delete := false }] := by
  decide

/-- The fetch-related state of AdminUI.tsx: `loading`, `error`, `original`. -/
structure FetchState where
  loading : Bool
  error : String
  original : List TUser
  deriving DecidableEq, Repr

/-- How a dispatched fetch can resolve: success, a non-ok HTTP response
(its statusText), a transport error that is an `Error` (its message), a
thrown non-`Error` value, or an abort. -/
inductive FetchOutcome where
  | success (data : List TUser)
  | httpFailure (statusText : String)
  | transportFailure (message : String)
  | nonErrorFailure
  | aborted

/-- `fetchData` of AdminUI.tsx, as a state transformer over the resolution
of the awaited fetch: a non-ok response throws
`new Error(response.statusText || "Something went wrong!")`; the catch
block returns early on `AbortError` (no `setError`) and otherwise stores
the message; the `finally` block always clears `loading`. -/
def fetchData (s : FetchState) : FetchOutcome → FetchState
  | .success data => { s with original := data, loading := false }
  | .httpFailure statusText =>
      { s with error := if statusText = "" then "Something went wrong!" else statusText,
               loading := false }
  | .transportFailure message => { s with error := message, loading := false }
  | .nonErrorFailure => { s with error := "Error while fetching the data", loading := false }
  | .aborted => { s with loading := false }

/-- The mount-time state: `useState(true)` for loading, `useState("")` for
error, `useState([])` for the canonical list. -/
def initialFetchState : FetchState := { loading := true, error := "", original := [] }

/-- Claim C9: an aborted fetch surfaces no error — the error string is
left untouched (empty on the initial fetch) and `loading` returns to
false, a non-error idle state — while every non-success response or
transport error stores a single human-readable message: the statusText
(or a default when it is empty, hence never the empty string), the thrown
error's message, or the fallback text for non-`Error` throwables. -/
theorem abort_surfaces_no_error :
    (∀ s : FetchState, (fetchData s .aborted).error = s.error
      ∧ (fetchData s .aborted).loading = false)
    ∧ (fetchData initialFetchState .aborted).error = ""
    ∧ (fetchData initialFetchState .aborted).loading = false
    ∧ (∀ statusText : String,
        (fetchData initialFetchState (.httpFailure statusText)).error
          = (if statusText = "" then "Something went wrong!" else statusText)
        ∧ (fetchData initialFetchState (.httpFailure statusText)).error ≠ "")
    ∧ (∀ message : String,
        (fetchData initialFetchState (.transportFailure message)).error = message)
    ∧ (fetchData initialFetchState .nonErrorFailure).error = "Error while fetching the data" := by
  refine ⟨fun s => ⟨rfl, rfl⟩, rfl, rfl, ?_, fun message => rfl, rfl⟩
  intro statusText
  refine ⟨rfl, ?_⟩
  show (if statusText = "" then "Something went wrong!" else statusText) ≠ ""
  split
  · decide
  · assumption

/-- Claim C10: deleting by an id that no record in the canonical list
carries is a silent no-op — the list is returned entirely unchanged. -/
theorem deleteOne_stale_noop (id : String) (l : List TUser) (h : ∀ item ∈ l, item.id ≠ id) :
    onDeleteClick id l = l := by
  unfold onDeleteClick
  apply List.filter_eq_self.mpr
  intro a ha
  simpa using h a ha

/-- Witness for C10: deleting the absent id "ghost" from the two-record
list leaves it unchanged. -/
theorem deleteOne_stale_noop_witness : onDeleteClick "ghost" mixedPage = mixedPage :=
  deleteOne_stale_noop "ghost" mixedPage (by decide)

/-- `range(start, end)` of usePagination.ts:
`if (start > end) return []; Array.from({length: end - start + 1}, (_, i) => start + i)`. -/
def rangeJs (start stop : Int) : List Int :=
  if start > stop then []
  else (List.range (stop - start + 1).toNat).map fun (i : Nat) => start + (i : Int)

/-- `const boundaryCount = 1` of usePagination.ts. -/
def boundaryCount : Int := 1

/-- `const siblingCount = 1` of usePagination.ts. -/
def siblingCount : Int := 1

/-- `startPages` of usePagination.ts: `range(1, Math.min(boundaryCount, totalPages))`. -/
def startPages (totalPages : Int) : List Int := rangeJs 1 (min boundaryCount totalPages)

/-- `endPages` of usePagination.ts:
`range(Math.max(totalPages - boundaryCount + 1, boundaryCount + 1), totalPages)`. -/
def endPages (totalPages : Int) : List Int :=
  rangeJs (max (totalPages - boundaryCount + 1) (boundaryCount + 1)) totalPages

/-- `siblingsStart` of usePagination.ts. -/
def siblingsStart (currentPage totalPages : Int) : Int :=
  max (min (currentPage - siblingCount) (totalPages - boundaryCount - siblingCount * 2 - 1))
    (boundaryCount + 1)

/-- `siblingsEnd` of usePagination.ts. -/
def siblingsEnd (currentPage totalPages : Int) : Int :=
  min (max (currentPage + siblingCount) (boundaryCount + siblingCount * 2 + 2))
    (totalPages - boundaryCount)

/-- The `value` field of a pagination entry: a page number or the "..."
gap marker. -/
inductive PageVal where
  | num (n : Int)
  | dots
  deriving DecidableEq, Repr

/-- One entry of the `pagination` array: `{ value, isSelected }`. -/
structure PagItem where
  value : PageVal
  isSelected : Bool
  deriving DecidableEq, Repr

/-- `{ value: page, isSelected: page === currentPage }`. -/
def pageItem (currentPage p : Int) : PagItem := ⟨.num p, p == currentPage⟩

/-- `{ value: "...", isSelected: false }`. -/
def gapItem : PagItem := ⟨.dots, false⟩

/-- The `pagination` memo of usePagination.ts: start boundary pages, an
optional gap, the sibling window, an optional gap, end boundary pages. -/
def pagination (currentPage totalPages : Int) : List PagItem :=
  (startPages totalPages).map (pageItem currentPage)
    ++ (if boundaryCount + 1 < siblingsStart currentPage totalPages then [gapItem] else [])
    ++ (rangeJs (siblingsStart currentPage totalPages) (siblingsEnd currentPage totalPages)).map
        (pageItem currentPage)
    ++ (if siblingsEnd currentPage totalPages < totalPages - boundaryCount then [gapItem] else [])
    ++ (endPages totalPages).map (pageItem currentPage)

/-- The page numbers of a token sequence, gaps dropped. -/
def pageNumbers (tokens : List PagItem) : List Int :=
  tokens.filterMap fun t => match t.value with | .num n => some n | .dots => none

/-- Whether a pagination entry is the "..." gap marker. -/
def isDots (t : PagItem) : Bool := t.value == PageVal.dots

section RangeJsLemmas

/-- Membership bounds for `rangeJs`. -/
theorem mem_rangeJs {x a b : Int} (h : x ∈ rangeJs a b) : a ≤ x ∧ x ≤ b := by
  unfold rangeJs at h
  split at h
  · simp at h
  · next hab =>
    simp only [List.mem_map, List.mem_range] at h
    obtain ⟨i, hi, rfl⟩ := h
    omega

/-- `rangeJs` is strictly increasing. -/
theorem pairwise_rangeJs (a b : Int) : (rangeJs a b).Pairwise (· < ·) := by
  unfold rangeJs
  split
  · exact List.Pairwise.nil
  · refine List.pairwise_map.mpr ?_
    refine (List.pairwise_lt_range _).imp ?_
    intro i j hij
    omega

/-- `rangeJs` on an empty interval. -/
theorem rangeJs_eq_nil {a b : Int} (h : b < a) : rangeJs a b = [] := by
  unfold rangeJs
  rw [if_pos (by omega)]

/-- `rangeJs` on a singleton interval. -/
theorem rangeJs_single (a : Int) : rangeJs a a = [a] := by
  unfold rangeJs
  rw [if_neg (by omega)]
  norm_num
  rw [show List.range 1 = [0] from rfl]
  simp

/-- `rangeJs` on a nonempty interval is nonempty. -/
theorem rangeJs_ne_nil {a b : Int} (h : a ≤ b) : rangeJs a b ≠ [] := by
  intro hnil
  have h1 : a ∈ rangeJs a b := by
    unfold rangeJs
    rw [if_neg (by omega)]
    simp only [List.mem_map, List.mem_range]
    exact ⟨0, by omega, by omega⟩
  rw [hnil] at h1
  simp at h1
end RangeJsLemmas

section PageNumbersLemmas

/-- `pageNumbers` distributes over append. -/
theorem pageNumbers_append (l₁ l₂ : List PagItem) :
    pageNumbers (l₁ ++ l₂) = pageNumbers l₁ ++ pageNumbers l₂ :=
  List.filterMap_append l₁ l₂ _

/-- `pageNumbers` of a block of page items is the underlying number list. -/
theorem pageNumbers_map (currentPage : Int) (r : List Int) :
    pageNumbers (r.map (pageItem currentPage)) = r := by
  induction r with
  | nil => rfl
  | cons a as ih =>
    simp only [List.map_cons, pageNumbers, List.filterMap_cons, pageItem] at ih ⊢
    rw [ih]

/-- `pageNumbers` of an optional-gap block is empty. -/
theorem pageNumbers_gap (c : Prop) [Decidable c] :
    pageNumbers (if c then [gapItem] else []) = [] := by
  split <;> rfl

/-- Page-item blocks contain no gap marker. -/
theorem isDots_map_pageItem (currentPage : Int) (r : List Int) :
    ∀ t ∈ r.map (pageItem currentPage), isDots t = false := by
  intro t ht
  simp only [List.mem_map] at ht
  obtain ⟨p, _, rfl⟩ := ht
  rfl

end PageNumbersLemmas

section ChainLemmas

/-- A token list without gap markers has no two adjacent gap markers. -/
theorem chain'_of_noDots (l : List PagItem) (h : ∀ t ∈ l, isDots t = false) :
    l.Chain' (fun a b => ¬(isDots a = true ∧ isDots b = true)) := by
  refine (List.pairwise_of_forall_mem_list ?_).chain'
  intro a ha b _ hc
  rw [h a ha] at hc
  exact Bool.false_ne_true hc.1

/-- Assembling the five pagination blocks: page blocks `S`, `M`, `E` with
optional singleton gaps between them never put two gap markers side by
side, provided a leading gap with an empty middle block is never followed
by a second gap. -/
theorem chain'_gap_blocks (S M E G1 G2 : List PagItem)
    (hS : ∀ t ∈ S, isDots t = false) (hM : ∀ t ∈ M, isDots t = false)
    (hE : ∀ t ∈ E, isDots t = false)
    (hG1 : G1 = [] ∨ G1 = [gapItem]) (hG2 : G2 = [] ∨ G2 = [gapItem])
    (h1 : G1 = [gapItem] → M = [] → G2 = []) :
    (S ++ (G1 ++ (M ++ (G2 ++ E)))).Chain'
      (fun a b => ¬(isDots a = true ∧ isDots b = true)) := by
  have hpageR : ∀ (x y : PagItem), isDots y = false →
      ¬(isDots x = true ∧ isDots y = true) := by
    intro x y hy hc
    rw [hy] at hc
    exact Bool.false_ne_true hc.2
  have hpageL : ∀ (x y : PagItem), isDots x = false →
      ¬(isDots x = true ∧ isDots y = true) := by
    intro x y hx hc
    rw [hx] at hc
    exact Bool.false_ne_true hc.1
  have hCE : E.Chain' (fun a b => ¬(isDots a = true ∧ isDots b = true)) :=
    chain'_of_noDots E hE
  have hG2E : (G2 ++ E).Chain' (fun a b => ¬(isDots a = true ∧ isDots b = true)) := by
    rcases hG2 with rfl | rfl
    · simpa using hCE
    · rw [List.chain'_append]
      refine ⟨List.chain'_singleton _, hCE, ?_⟩
      intro x _ y hy
      exact hpageR x y (hE y (List.mem_of_mem_head? hy))
  have hMG2E : (M ++ (G2 ++ E)).Chain' (fun a b => ¬(isDots a = true ∧ isDots b = true)) := by
    rw [List.chain'_append]
    refine ⟨chain'_of_noDots M hM, hG2E, ?_⟩
    intro x hx y _
    exact hpageL x y (hM x (List.mem_of_mem_getLast? hx))
  have hG1rest : (G1 ++ (M ++ (G2 ++ E))).Chain'
      (fun a b => ¬(isDots a = true ∧ isDots b = true)) := by
    rcases hG1 with rfl | rfl
    · simpa using hMG2E
    · rw [List.chain'_append]
      refine ⟨List.chain'_singleton _, hMG2E, ?_⟩
      intro x _ y hy
      cases hM' : M with
      | nil =>
        have hG2' : G2 = [] := h1 rfl hM'
        rw [hM', hG2'] at hy
        simp only [List.nil_append] at hy
        exact hpageR x y (hE y (List.mem_of_mem_head? hy))
      | cons m ms =>
        rw [hM'] at hy
        simp only [List.cons_append, List.head?_cons, Option.mem_def, Option.some.injEq] at hy
        subst hy
        exact hpageR x m (hM m (by rw [hM']; exact List.mem_cons_self m ms))
  rw [List.chain'_append]
  refine ⟨chain'_of_noDots S hS, hG1rest, ?_⟩
  intro x hx y _
  exact hpageL x y (hS x (List.mem_of_mem_getLast? hx))

end ChainLemmas

/-- Claim C5: for every `totalPages` at least 1 and `currentPage` in
`[1, totalPages]` (with boundaryCount = siblingCount = 1), the pagination
token sequence has strictly increasing page numbers, hence no duplicate
numbers, and never places two gap markers side by side; for
`totalPages = 1` the output is exactly the single (selected) token for
page 1 with no gaps. -/
theorem pagination_window_wellFormed (cp tp : Int) (hcp : 1 ≤ cp) (htp : cp ≤ tp) :
    (pageNumbers (pagination cp tp)).Pairwise (· < ·)
    ∧ (pageNumbers (pagination cp tp)).Nodup
    ∧ (pagination cp tp).Chain' (fun a b => ¬(isDots a = true ∧ isDots b = true))
    ∧ (tp = 1 → pagination cp tp = [⟨.num 1, true⟩]) := by
  have fS : 2 ≤ siblingsStart cp tp := by
    simp only [siblingsStart, boundaryCount, siblingCount]
    omega
  have fE : siblingsEnd cp tp ≤ tp - 1 := by
    simp only [siblingsEnd, boundaryCount, siblingCount]
    omega
  have fg1 : 2 < siblingsStart cp tp → siblingsStart cp tp ≤ siblingsEnd cp tp := by
    simp only [siblingsStart, siblingsEnd, boundaryCount, siblingCount]
    omega
  have hS1 : startPages tp = [1] := by
    simp only [startPages, boundaryCount]
    rw [show min (1 : Int) tp = 1 by omega]
    exact rangeJs_single 1
  have hEnd : (tp = 1 ∧ endPages tp = []) ∨ (2 ≤ tp ∧ endPages tp = [tp]) := by
    by_cases h : tp = 1
    · left
      refine ⟨h, ?_⟩
      simp only [endPages, boundaryCount, h]
      exact rangeJs_eq_nil (by omega)
    · right
      refine ⟨by omega, ?_⟩
      simp only [endPages, boundaryCount]
      rw [show max (tp - 1 + 1) (1 + 1) = tp by omega]
      exact rangeJs_single tp
  have hpn : pageNumbers (pagination cp tp)
      = 1 :: (rangeJs (siblingsStart cp tp) (siblingsEnd cp tp) ++ endPages tp) := by
    unfold pagination
    rw [pageNumbers_append, pageNumbers_append, pageNumbers_append, pageNumbers_append,
      pageNumbers_map, pageNumbers_map, pageNumbers_map, pageNumbers_gap, pageNumbers_gap, hS1]
    simp
  have hpw : (pageNumbers (pagination cp tp)).Pairwise (· < ·) := by
    rw [hpn, List.pairwise_cons]
    constructor
    · intro b hb
      rcases List.mem_append.mp hb with hb | hb
      · have := mem_rangeJs hb
        omega
      · rcases hEnd with ⟨h1, hE⟩ | ⟨h1, hE⟩
        · rw [hE] at hb
          simp at hb
        · rw [hE] at hb
          simp at hb
          omega
    · rw [List.pairwise_append]
      refine ⟨pairwise_rangeJs _ _, ?_, ?_⟩
      · rcases hEnd with ⟨h1, hE⟩ | ⟨h1, hE⟩ <;> rw [hE] <;> simp
      · intro a ha b hb
        rcases hEnd with ⟨h1, hE⟩ | ⟨h1, hE⟩
        · rw [hE] at hb
          simp at hb
        · rw [hE] at hb
          simp at hb
          subst hb
          have := mem_rangeJs ha
          omega
  have hch : (pagination cp tp).Chain' (fun a b => ¬(isDots a = true ∧ isDots b = true)) := by
    have hassoc : pagination cp tp
        = ((startPages tp).map (pageItem cp))
          ++ ((if boundaryCount + 1 < siblingsStart cp tp then [gapItem] else [])
          ++ (((rangeJs (siblingsStart cp tp) (siblingsEnd cp tp)).map (pageItem cp))
          ++ ((if siblingsEnd cp tp < tp - boundaryCount then [gapItem] else [])
          ++ ((endPages tp).map (pageItem cp))))) := by
      unfold pagination
      simp [List.append_assoc]
    rw [hassoc]
    apply chain'_gap_blocks
    · exact isDots_map_pageItem cp _
    · exact isDots_map_pageItem cp _
    · exact isDots_map_pageItem cp _
    · split
      · right
        rfl
      · left
        rfl
    · split
      · right
        rfl
      · left
        rfl
    · intro hg1 hMnil
      exfalso
      by_cases hc : boundaryCount + 1 < siblingsStart cp tp
      · have hc2 : 2 < siblingsStart cp tp := by
          simp only [boundaryCount] at hc
          omega
        have hne := rangeJs_ne_nil (fg1 hc2)
        rw [List.map_eq_nil_iff] at hMnil
        exact hne hMnil
      · rw [if_neg hc] at hg1
        simp at hg1
  refine ⟨hpw, hpw.imp ne_of_lt, hch, ?_⟩
  intro h1
  subst h1
  have hcp1 : cp = 1 := by omega
  subst hcp1
  decide

/-- Witness for C5 at currentPage 5 of 10 total pages. -/
theorem pagination_window_wellFormed_witness :
    (pageNumbers (pagination 5 10)).Pairwise (· < ·)
    ∧ (pageNumbers (pagination 5 10)).Nodup
    ∧ (pagination 5 10).Chain' (fun a b => ¬(isDots a = true ∧ isDots b = true))
    ∧ ((10 : Int) = 1 → pagination 5 10 = [⟨.num 1, true⟩]) :=
  pagination_window_wellFormed 5 10 (by decide) (by decide)
